import Mathlib

/-!
Shallow embedding of `src/basic_cleaning_and_filtering.py` (Quotebank
cleaning / Wikidata-enrichment script) and proofs about it.

Python values appearing in quote records are modelled by `Val`; a quote
record (a Python `dict` loaded from a JSON line) is an association list
with Python-dict semantics (`alGet?` / `alSet` / `alContains`); the
speaker-attributes DataFrame is `AttrTable`; Python exceptions are the
`PyError` type and fallible computations return `Except PyError _`.
-/

set_option autoImplicit false

namespace Quotebank

/-- A Python value as it occurs in a quote record: a string, a list, or
`None`. -/
inductive Val where
  | str (s : String)
  | listV (xs : List Val)
  | noneV
  deriving Repr

mutual

def Val.decEq : (a b : Val) → Decidable (a = b)
  | .str a, .str b =>
    match String.decEq a b with
    | isTrue h => isTrue (h ▸ rfl)
    | isFalse h => isFalse (fun hh => h (Val.str.inj hh))
  | .listV as, .listV bs =>
    match Val.decEqList as bs with
    | isTrue h => isTrue (h ▸ rfl)
    | isFalse h => isFalse (fun hh => h (Val.listV.inj hh))
  | .noneV, .noneV => isTrue rfl
  | .str _, .listV _ => isFalse (fun h => Val.noConfusion h)
  | .str _, .noneV => isFalse (fun h => Val.noConfusion h)
  | .listV _, .str _ => isFalse (fun h => Val.noConfusion h)
  | .listV _, .noneV => isFalse (fun h => Val.noConfusion h)
  | .noneV, .str _ => isFalse (fun h => Val.noConfusion h)
  | .noneV, .listV _ => isFalse (fun h => Val.noConfusion h)

def Val.decEqList : (as bs : List Val) → Decidable (as = bs)
  | [], [] => isTrue rfl
  | [], _ :: _ => isFalse (fun h => List.noConfusion h)
  | _ :: _, [] => isFalse (fun h => List.noConfusion h)
  | a :: as, b :: bs =>
    match Val.decEq a b, Val.decEqList as bs with
    | isTrue h1, isTrue h2 => isTrue (by rw [h1, h2])
    | isFalse h1, _ => isFalse (fun hh => h1 (by injection hh))
    | isTrue _, isFalse h2 => isFalse (fun hh => h2 (by injection hh))

end

instance : DecidableEq Val := Val.decEq

/-- Python exceptions the script can raise. `exception msg` is an
explicitly `raise`d `Exception(msg)`; the others are errors coming out of
builtins (`min`, `int`, indexing, key lookup, iteration). -/
inductive PyError where
  | exception (msg : String)
  | valueError (msg : String)
  | keyError (k : String)
  | indexError
  | typeError (msg : String)
  deriving DecidableEq, Repr

/-- Holds (is `true`) exactly when the error is an explicitly raised
`Exception` (the only kind of deliberately raised, named error in this
script), as opposed to an exception escaping from a builtin. -/
def PyError.isExplicitRaise : PyError → Bool
  | .exception _ => true
  | _ => false

/-- Python-dict lookup `d[k]` (as an `Option`) over an association list. -/
def alGet? {α : Type} (d : List (String × α)) (k : String) : Option α :=
  (d.find? (fun p => p.1 == k)).map (fun p => p.2)

/-- Python `k in d`. -/
def alContains {α : Type} (d : List (String × α)) (k : String) : Bool :=
  d.any (fun p => p.1 == k)

/-- Python-dict assignment `d[k] = v`: replace the value in place if the
key is present (keeping its position), otherwise append the new entry. -/
def alSet {α : Type} (d : List (String × α)) (k : String) (v : α) :
    List (String × α) :=
  if d.any (fun p => p.1 == k) then
    d.map (fun p => if p.1 == k then (k, v) else p)
  else d ++ [(k, v)]

/-- Pointwise form of the replacement map inside `alSet`; used only to
reason about `alSet` by structural induction. -/
def replAll {α : Type} : List (String × α) → String → α → List (String × α)
  | [], _, _ => []
  | p :: d, k, v => (if p.1 == k then (k, v) else p) :: replAll d k v

/-- Recursive reformulation of `alSet`; used only to reason about `alSet`
by structural induction (see `alSet_eq_alSetRec`). -/
def alSetRec {α : Type} : List (String × α) → String → α → List (String × α)
  | [], k, v => [(k, v)]
  | p :: d, k, v =>
    if p.1 == k then (k, v) :: replAll d k v else p :: alSetRec d k v

/-- A quote record: a Python dict mapping field names to values. -/
abbrev Record := List (String × Val)

/- ### Decimal strings and Python `int` -/

/-- The decimal digit character for `d < 10`. -/
def digitChar (d : Nat) : Char := Char.ofNat (48 + d)

/-- Canonical decimal digits of `n`, most significant first; `fuel` bounds
the recursion depth (any `fuel > n` suffices) and makes the recursion
structural, so that concrete strings evaluate by mere unfolding. -/
def natCharsAux : Nat → Nat → List Char
  | 0, _ => []
  | fuel + 1, n =>
    if n < 10 then [digitChar n]
    else natCharsAux fuel (n / 10) ++ [digitChar (n % 10)]

/-- Canonical decimal digits of `n`, most significant first. -/
def natChars (n : Nat) : List Char := natCharsAux (n + 1) n

/-- Canonical decimal representation of `n` (Python `str(n)` /
Python format of a nonnegative `int`). -/
def natStr (n : Nat) : String := ⟨natChars n⟩

/-- Numeric value of a decimal digit character, if it is one. -/
def digitVal? (c : Char) : Option Nat :=
  if 48 ≤ c.toNat ∧ c.toNat ≤ 57 then some (c.toNat - 48) else none

/-- Accumulating decimal parse; `none` on the first non-digit. -/
def parseDigitsAux : Nat → List Char → Option Nat
  | acc, [] => some acc
  | acc, c :: cs =>
    match digitVal? c with
    | some d => parseDigitsAux (acc * 10 + d) cs
    | none => none

/-- Python `int(s)` restricted to the shapes this script feeds it
(nonnegative decimal literals; anything else raises `ValueError`). -/
def pyInt (s : String) : Except PyError Nat :=
  match s.data with
  | [] => .error (.valueError ("invalid literal for int() with base 10: " ++ s))
  | cs =>
    match parseDigitsAux 0 cs with
    | some n => .ok n
    | none => .error (.valueError ("invalid literal for int() with base 10: " ++ s))

/-- Embeds the call `qid.replace` with pattern `Q` and empty replacement:
the pattern is a single character, so this deletes every letter `Q` from
the string. -/
def removeQ (s : String) : String := ⟨s.data.filter (fun c => !(c == 'Q'))⟩

/- ### `get_min_qid` (source lines 93–98) -/

/-- The list comprehension building `qids_int` inside `get_min_qid`:
each element is `int(removeQ(qid))`, converted left to right, and the
first failure propagates. -/
def qidsToInts : List String → Except PyError (List Nat)
  | [] => .ok []
  | q :: qs => do
    let n ← pyInt (removeQ q)
    let ns ← qidsToInts qs
    return n :: ns

/-- Python `min` over a list: `ValueError` on the empty list, otherwise a
left fold of binary `min`. -/
def pyMin (l : List Nat) : Except PyError Nat :=
  match l with
  | [] => .error (.valueError "min() arg is an empty sequence")
  | x :: xs => .ok (xs.foldl Nat.min x)

/-- The function `get_min_qid(qids)`: formats the letter `Q` followed by
`min(qids_int)`, where `qids_int` is the list of integer parts of the
given QID strings. -/
def get_min_qid (qids : List String) : Except PyError String := do
  let qids_int ← qidsToInts qids
  let m ← pyMin qids_int
  return "Q" ++ natStr m

/- ### `map_qids_to_labels` (source lines 101–115) -/

/-- The Wikidata client, abstracted to its observable behaviour at this
call site: `wiki q = some l` when `str(client.get(q, load=True).label)`
returns `l`, and `none` when that lookup raises (any exception). -/
abbrev WikiClient := String → Option String

/-- The function `map_qids_to_labels(qids, wiki_client)`: builds the dict
`{qid: label}` by looping over `qids`; a QID whose lookup raises is
skipped (logged only), leaving no entry. -/
def map_qids_to_labels (qids : List String) (wiki_client : WikiClient) :
    List (String × String) :=
  qids.foldl
    (fun d qid =>
      match wiki_client qid with
      | some lbl => alSet d qid lbl
      | none => d)
    []

/- ### The speaker-attributes DataFrame -/

/-- One row of `speakers_attributes`: the entity `id` and, for each
column name, the cell value — `none` models a pandas `None` cell, and
`some vs` a stored array whose `.tolist()` is `vs`. -/
structure AttrRow where
  id : String
  cells : String → Option (List String)

/-- The `speakers_attributes` DataFrame: its column list and its rows. -/
structure AttrTable where
  columns : List String
  rows : List AttrRow

/- ### `add_wikidata_column_to_quote` (source lines 118–177) -/

/-- Reads the field `qids` of `quote_data` as fed to `get_min_qid`: the
field must exist (else `KeyError`) and be a list of strings (a non-list
cannot be iterated and a non-string element has no `.replace`). -/
def lookupQids (qd : Record) : Except PyError (List String) :=
  match alGet? qd "qids" with
  | none => .error (.keyError "qids")
  | some (Val.listV vs) =>
    vs.mapM (fun v =>
      match v with
      | Val.str s => Except.ok s
      | _ => Except.error (.typeError "qid has no attribute replace"))
  | some _ => .error (.typeError "qids is not iterable")

/-- The value appended into the new column: for `is_qid=True` the labels
of the QIDs of the cell in dict-iteration order, otherwise the raw cell values
(via the `{i: val for i, val in enumerate(...)}` dict, whose iteration
returns them in order). -/
def labelsVal (is_qid : Bool) (cell : List String) (wiki_client : WikiClient) :
    Val :=
  Val.listV
    ((if is_qid then (map_qids_to_labels cell wiki_client).map Prod.snd
      else (cell.enum.map Prod.snd)).map Val.str)

/-- The body of `add_wikidata_column_to_quote` acting on the dict
`quote_data` it works with. Returns the outcome of the call (normal
return value or raised exception) together with the final state of that dict,
which matters when the caller passed `inplace=True`. -/
def addColState (quote_data : Record) (column_name : String)
    (speakers_attributes : AttrTable) (ignore_existing is_qid : Bool)
    (wiki_client : WikiClient) : Except PyError Record × Record :=
  if ignore_existing = false ∧ alContains quote_data column_name = true then
    (.error (.exception
        ("Provided column name \"" ++ column_name ++ "\" already exists!")),
      quote_data)
  else if speakers_attributes.columns.contains column_name = false then
    (.error (.exception
        ("Provided column name \"" ++ column_name ++ "\" does not exist in " ++
          "the provided speaker atttributes DataFrame!")),
      quote_data)
  else
    let qd1 := alSet quote_data column_name (Val.listV [])
    match lookupQids qd1 with
    | .error e => (.error e, qd1)
    | .ok qids =>
      match get_min_qid qids with
      | .error e => (.error e, qd1)
      | .ok speaker_qid =>
        match (speakers_attributes.rows.filter
            (fun r => r.id == speaker_qid)).head? with
        | none => (.error .indexError, qd1)
        | some row =>
          match row.cells column_name with
          | none => (.ok qd1, qd1)
          | some cell =>
            let qd2 := alSet qd1 column_name (labelsVal is_qid cell wiki_client)
            (.ok qd2, qd2)

/-- The function `add_wikidata_column_to_quote`. The first component is
the outcome (returned record or raised exception); the second is the state
of the record `quote_data_original` of the caller after the call: with
`inplace=True` the function works on that very dict, with `inplace=False`
it works on a copy and the original is untouched. -/
def add_wikidata_column_to_quote (quote_data_original : Record)
    (column_name : String) (speakers_attributes : AttrTable)
    (inplace ignore_existing is_qid : Bool) (wiki_client : WikiClient) :
    Except PyError Record × Record :=
  let r := addColState quote_data_original column_name speakers_attributes
    ignore_existing is_qid wiki_client
  if inplace then r else (r.1, quote_data_original)

/- ### The filter stage (source lines 55–65) -/

/-- The comparison of the field `speaker` against the string constant
`None`: true exactly when the speaker value is that very string (a
non-string value never equals a string in Python). -/
def isNoneVal : Val → Bool
  | .str s => s == "None"
  | _ => false

/-- The filter loop over the parsed records of one input file: each
field `speaker` of each record is read (`KeyError` if absent); records
whose speaker is the string `None` are dropped, all others are written out
unchanged, in
input order. -/
def discardNoneSpeakers : List Record → Except PyError (List Record)
  | [] => .ok []
  | r :: rs =>
    match alGet? r "speaker" with
    | none => .error (.keyError "speaker")
    | some v =>
      if isNoneVal v then discardNoneSpeakers rs
      else do
        let rest ← discardNoneSpeakers rs
        return r :: rest

/-- The keep-condition the filter stage implements, as a predicate on one
record (for records that do have a `speaker` field). -/
def keepRecord (r : Record) : Bool :=
  match alGet? r "speaker" with
  | some v => !(isNoneVal v)
  | none => false

/- ### Concrete example data (used to instantiate the theorems) -/

/-- A sample quote record as parsed from one Quotebank JSON line. -/
def exQuote : Record :=
  [("quotation", Val.str "I like tea."),
   ("speaker", Val.str "Douglas Adams"),
   ("qids", Val.listV [Val.str "Q42", Val.str "Q5"])]

/-- A speaker-attributes row for entity Q5: gender holds the QID
Q6581097, date_of_birth is a pandas `None`. -/
def exRow : AttrRow :=
  { id := "Q5",
    cells := fun c =>
      if c == "gender" then some ["Q6581097"]
      else if c == "id" then some ["Q5"]
      else none }

/-- A speaker-attributes table with the single row `exRow`. -/
def exTable : AttrTable :=
  { columns := ["id", "gender", "date_of_birth"], rows := [exRow] }

/-- The same table but with no row at all (no entity matches). -/
def exTableNoRows : AttrTable :=
  { columns := ["id", "gender", "date_of_birth"], rows := [] }

/-- A label service knowing only that Q6581097 is labelled "male". -/
def exWiki : WikiClient := fun q => if q == "Q6581097" then some "male" else none

/-- The sample record with a pre-existing (colliding) gender field. -/
def exQuoteGender : Record := ("gender", Val.listV []) :: exQuote

/-- The sample record after gender enrichment. -/
def exEnriched : Record := exQuote ++ [("gender", Val.listV [Val.str "male"])]

/-- A record whose most probable speaker is unresolved. -/
def exQuoteNone : Record :=
  [("quotation", Val.str "No idea who said this."),
   ("speaker", Val.str "None"),
   ("qids", Val.listV [])]

/- ## Association-list (Python dict) lemmas -/

theorem alGet?_cons {α : Type} (p : String × α) (d : List (String × α))
    (k : String) :
    alGet? (p :: d) k = if p.1 == k then some p.2 else alGet? d k := by
  by_cases h : p.1 == k <;> simp [alGet?, List.find?_cons, h]

theorem alContains_eq_isSome {α : Type} (d : List (String × α)) (k : String) :
    alContains d k = (alGet? d k).isSome := by
  induction d with
  | nil => rfl
  | cons p ds ih =>
    by_cases h : p.1 == k <;>
      simp [alContains, List.any_cons, alGet?_cons, h] <;>
      simpa [alContains] using ih

theorem map_replAll {α : Type} (k : String) (v : α) :
    ∀ d : List (String × α),
      d.map (fun p => if p.1 == k then (k, v) else p) = replAll d k v
  | [] => rfl
  | p :: d => by
    rw [List.map_cons, map_replAll k v d]; rfl

theorem alSet_eq_alSetRec {α : Type} (k : String) (v : α) :
    ∀ d : List (String × α), alSet d k v = alSetRec d k v
  | [] => by simp [alSet, alSetRec]
  | p :: d => by
    cases hb : p.1 == k with
    | true =>
      simp only [alSet, alSetRec, List.any_cons, List.map_cons, hb,
        Bool.true_or, if_true, map_replAll]
    | false =>
      have htail := alSet_eq_alSetRec k v d
      simp only [alSet, alSetRec, List.any_cons, List.map_cons, hb,
        Bool.false_or, if_false] at htail ⊢
      cases ha : d.any (fun p => p.1 == k) with
      | true =>
        rw [ha] at htail
        simp only [if_true] at htail
        simp only [if_true]
        rw [htail]
        simp
      | false =>
        rw [ha] at htail
        simp at htail
        simp
        rw [htail]

theorem replAll_replAll {α : Type} (k : String) (v w : α) :
    ∀ d : List (String × α), replAll (replAll d k v) k w = replAll d k w
  | [] => rfl
  | p :: d => by
    cases hb : p.1 == k with
    | true => simp [replAll, hb, replAll_replAll k v w d]
    | false => simp [replAll, hb, replAll_replAll k v w d]

theorem alGet?_replAll_ne {α : Type} (k k' : String) (v : α)
    (hkk : (k == k') = false) :
    ∀ d : List (String × α), alGet? (replAll d k v) k' = alGet? d k'
  | [] => rfl
  | p :: d => by
    cases hb : p.1 == k with
    | true =>
      have hp' : (p.1 == k') = false := by
        simp only [beq_iff_eq] at hb hkk ⊢
        rw [hb]; exact hkk
      simp [replAll, hb, alGet?_cons, hp', hkk, alGet?_replAll_ne k k' v hkk d]
    | false =>
      cases hq : p.1 == k' with
      | true => simp [replAll, hb, alGet?_cons, hq]
      | false => simp [replAll, hb, alGet?_cons, hq, alGet?_replAll_ne k k' v hkk d]

theorem alGet?_alSetRec_self {α : Type} (k : String) (v : α) :
    ∀ d : List (String × α), alGet? (alSetRec d k v) k = some v
  | [] => by simp [alSetRec, alGet?_cons]
  | p :: d => by
    cases hb : p.1 == k with
    | true => simp [alSetRec, hb, alGet?_cons]
    | false => simp [alSetRec, hb, alGet?_cons, alGet?_alSetRec_self k v d]

theorem alGet?_alSetRec_ne {α : Type} (k k' : String) (v : α)
    (hkk : (k == k') = false) :
    ∀ d : List (String × α), alGet? (alSetRec d k v) k' = alGet? d k'
  | [] => by simp [alSetRec, alGet?_cons, hkk, alGet?]
  | p :: d => by
    cases hb : p.1 == k with
    | true =>
      have hp' : (p.1 == k') = false := by
        simp only [beq_iff_eq] at hb ⊢
        rw [hb]
        simpa using hkk
      simp [alSetRec, hb, alGet?_cons, hp', hkk, alGet?_replAll_ne k k' v hkk d]
    | false =>
      cases hq : p.1 == k' with
      | true => simp [alSetRec, hb, alGet?_cons, hq]
      | false => simp [alSetRec, hb, alGet?_cons, hq, alGet?_alSetRec_ne k k' v hkk d]

theorem alSetRec_alSetRec {α : Type} (k : String) (v w : α) :
    ∀ d : List (String × α), alSetRec (alSetRec d k v) k w = alSetRec d k w
  | [] => by simp [alSetRec, replAll]
  | p :: d => by
    cases hb : p.1 == k with
    | true => simp [alSetRec, hb, replAll_replAll k v w d]
    | false => simp [alSetRec, hb, alSetRec_alSetRec k v w d]

theorem alGet?_alSet_self {α : Type} (d : List (String × α)) (k : String)
    (v : α) : alGet? (alSet d k v) k = some v := by
  rw [alSet_eq_alSetRec]; exact alGet?_alSetRec_self k v d

theorem alGet?_alSet_ne {α : Type} (d : List (String × α)) (k k' : String)
    (v : α) (h : k' ≠ k) : alGet? (alSet d k v) k' = alGet? d k' := by
  have hkk : (k == k') = false := by
    simp only [beq_eq_false_iff_ne, ne_eq]
    exact fun hh => h hh.symm
  rw [alSet_eq_alSetRec]; exact alGet?_alSetRec_ne k k' v hkk d

theorem alSet_alSet {α : Type} (d : List (String × α)) (k : String)
    (v w : α) : alSet (alSet d k v) k w = alSet d k w := by
  rw [alSet_eq_alSetRec, alSet_eq_alSetRec, alSet_eq_alSetRec]
  exact alSetRec_alSetRec k v w d

/- ## Decimal strings, `pyInt` and `get_min_qid` -/

theorem digitVal?_digitChar : ∀ d : Nat, d < 10 → digitVal? (digitChar d) = some d := by
  decide

theorem digitChar_ne_Q : ∀ d : Nat, d < 10 → (digitChar d == 'Q') = false := by
  decide

theorem natCharsAux_ne_nil : ∀ fuel n : Nat, n < fuel → natCharsAux fuel n ≠ []
  | 0, _, h => by omega
  | fuel + 1, n, _ => by
    simp only [natCharsAux]
    split <;> simp

theorem natChars_ne_nil (n : Nat) : natChars n ≠ [] :=
  natCharsAux_ne_nil (n + 1) n (Nat.lt_succ_self n)

theorem natCharsAux_digits : ∀ fuel n : Nat, n < fuel →
    ∀ c ∈ natCharsAux fuel n, ∃ d, d < 10 ∧ c = digitChar d
  | 0, _, h => by omega
  | fuel + 1, n, h => by
    intro c hc
    simp only [natCharsAux] at hc
    split at hc
    · rename_i hlt
      simp only [List.mem_singleton] at hc
      exact ⟨n, hlt, hc⟩
    · rename_i hge
      rw [List.mem_append] at hc
      rcases hc with hc | hc
      · exact natCharsAux_digits fuel (n / 10) (by omega) c hc
      · simp only [List.mem_singleton] at hc
        exact ⟨n % 10, Nat.mod_lt _ (by omega), hc⟩

theorem natChars_digits (n : Nat) :
    ∀ c ∈ natChars n, ∃ d, d < 10 ∧ c = digitChar d :=
  natCharsAux_digits (n + 1) n (Nat.lt_succ_self n)

theorem parseDigitsAux_singleton (acc d : Nat) (h : d < 10) :
    parseDigitsAux acc [digitChar d] = some (acc * 10 + d) := by
  simp [parseDigitsAux, digitVal?_digitChar d h]

theorem parseDigitsAux_append_ok (ys : List Char) :
    ∀ (xs : List Char) (acc a : Nat), parseDigitsAux acc xs = some a →
      parseDigitsAux acc (xs ++ ys) = parseDigitsAux a ys
  | [], acc, a, h => by
    obtain rfl : acc = a := by simpa [parseDigitsAux] using h
    rfl
  | c :: cs, acc, a, h => by
    cases hd : digitVal? c with
    | some d =>
      rw [List.cons_append]
      simp only [parseDigitsAux, hd] at h ⊢
      exact parseDigitsAux_append_ok ys cs _ a h
    | none =>
      simp only [parseDigitsAux, hd] at h
      exact Option.noConfusion h

theorem parseDigitsAux_natCharsAux : ∀ fuel n : Nat, n < fuel →
    ∀ acc : Nat,
      parseDigitsAux acc (natCharsAux fuel n)
        = some (acc * 10 ^ (natCharsAux fuel n).length + n)
  | 0, _, h => by omega
  | fuel + 1, n, h => by
    intro acc
    simp only [natCharsAux]
    split
    · rename_i hlt
      simp [parseDigitsAux, digitVal?_digitChar n hlt]
    · rename_i hge
      have h1 := parseDigitsAux_natCharsAux fuel (n / 10) (by omega) acc
      rw [parseDigitsAux_append_ok [digitChar (n % 10)]
            (natCharsAux fuel (n / 10)) acc _ h1,
        parseDigitsAux_singleton _ (n % 10) (Nat.mod_lt _ (by omega))]
      congr 1
      simp only [List.length_append, List.length_cons, List.length_nil,
        Nat.zero_add, pow_succ]
      rw [← Nat.mul_assoc]
      generalize acc * 10 ^ (natCharsAux fuel (n / 10)).length = A
      omega

theorem parseDigitsAux_natChars (n acc : Nat) :
    parseDigitsAux acc (natChars n)
      = some (acc * 10 ^ (natChars n).length + n) :=
  parseDigitsAux_natCharsAux (n + 1) n (Nat.lt_succ_self n) acc

theorem pyInt_natStr (n : Nat) : pyInt (natStr n) = .ok n := by
  have hp := parseDigitsAux_natChars n 0
  simp only [Nat.zero_mul, Nat.zero_add] at hp
  unfold pyInt
  cases hh : (natStr n).data with
  | nil =>
    have hh' : natChars n = [] := hh
    exact absurd hh' (natChars_ne_nil n)
  | cons c cs =>
    have hh' : natChars n = c :: cs := hh
    rw [hh'] at hp
    simp [hp]

theorem natChars_not_Q (n : Nat) : ∀ c ∈ natChars n, (!(c == 'Q')) = true := by
  intro c hc
  obtain ⟨d, hd, rfl⟩ := natChars_digits n c hc
  simp [digitChar_ne_Q d hd]

theorem removeQ_Q_natStr (n : Nat) : removeQ ("Q" ++ natStr n) = natStr n := by
  have h1 : ("Q" ++ natStr n).data = 'Q' :: natChars n := rfl
  unfold removeQ
  rw [h1]
  unfold natStr
  congr 1
  rw [List.filter_cons, if_neg (by decide)]
  exact List.filter_eq_self.mpr (natChars_not_Q n)

theorem qidsToInts_map :
    ∀ ns : List Nat,
      qidsToInts (ns.map (fun n => "Q" ++ natStr n)) = .ok ns
  | [] => rfl
  | n :: ns => by
    simp [qidsToInts, removeQ_Q_natStr, pyInt_natStr, qidsToInts_map ns,
      Bind.bind, Except.bind, pure, Except.pure]

theorem foldl_min_mem : ∀ (xs : List Nat) (x : Nat), xs.foldl Nat.min x ∈ x :: xs
  | [], _ => by simp
  | a :: xs, x => by
    have h := foldl_min_mem xs (Nat.min x a)
    have hmin : Nat.min x a = x ∨ Nat.min x a = a := by
      show x ⊓ a = x ∨ x ⊓ a = a
      rw [Nat.min_def]
      split
      · exact Or.inl rfl
      · exact Or.inr rfl
    simp only [List.foldl_cons, List.mem_cons] at h ⊢
    rcases h with h1 | h1
    · rcases hmin with hm | hm <;> rw [hm] at h1 ⊢ <;> simp [h1]
    · simp [h1]

theorem foldl_min_le :
    ∀ (xs : List Nat) (x y : Nat), y ∈ x :: xs → xs.foldl Nat.min x ≤ y
  | [], x, y, hy => by
    simp only [List.mem_singleton] at hy
    simp [hy]
  | a :: xs, x, y, hy => by
    simp only [List.foldl_cons]
    simp only [List.mem_cons] at hy
    rcases hy with rfl | rfl | hy
    · exact Nat.le_trans
        (foldl_min_le xs (Nat.min y a) _ (List.mem_cons_self _ _))
        (Nat.min_le_left y a)
    · exact Nat.le_trans
        (foldl_min_le xs (Nat.min x y) _ (List.mem_cons_self _ _))
        (Nat.min_le_right x y)
    · exact foldl_min_le xs (Nat.min x a) y (List.mem_cons_of_mem _ hy)

/- ## Computation lemmas for `add_wikidata_column_to_quote` -/

theorem addColState_collision (qd : Record) (col : String) (tbl : AttrTable)
    (iq : Bool) (w : WikiClient) (h : alContains qd col = true) :
    addColState qd col tbl false iq w =
      (.error (.exception
          ("Provided column name \"" ++ col ++ "\" already exists!")), qd) := by
  simp only [addColState]
  rw [if_pos ⟨by trivial, h⟩]

theorem addColState_none_cell (qd : Record) (col : String) (tbl : AttrTable)
    (ig iq : Bool) (w : WikiClient) (qids : List String) (sq : String)
    (row : AttrRow)
    (hg : ig = true ∨ alContains qd col = false)
    (hc : tbl.columns.contains col = true)
    (hq : lookupQids (alSet qd col (Val.listV [])) = .ok qids)
    (hm : get_min_qid qids = .ok sq)
    (hr : (tbl.rows.filter (fun r => r.id == sq)).head? = some row)
    (hcell : row.cells col = none) :
    addColState qd col tbl ig iq w =
      (.ok (alSet qd col (Val.listV [])), alSet qd col (Val.listV [])) := by
  simp only [addColState]
  rw [if_neg (by rcases hg with h | h <;> simp [h]), if_neg (by simpa using hc)]
  simp only [hq, hm, hr, hcell]

theorem addColState_some_cell (qd : Record) (col : String) (tbl : AttrTable)
    (ig iq : Bool) (w : WikiClient) (qids : List String) (sq : String)
    (row : AttrRow) (cell : List String)
    (hg : ig = true ∨ alContains qd col = false)
    (hc : tbl.columns.contains col = true)
    (hq : lookupQids (alSet qd col (Val.listV [])) = .ok qids)
    (hm : get_min_qid qids = .ok sq)
    (hr : (tbl.rows.filter (fun r => r.id == sq)).head? = some row)
    (hcell : row.cells col = some cell) :
    addColState qd col tbl ig iq w =
      (.ok (alSet (alSet qd col (Val.listV [])) col (labelsVal iq cell w)),
       alSet (alSet qd col (Val.listV [])) col (labelsVal iq cell w)) := by
  simp only [addColState]
  rw [if_neg (by rcases hg with h | h <;> simp [h]), if_neg (by simpa using hc)]
  simp only [hq, hm, hr, hcell]

theorem addColState_no_row (qd : Record) (col : String) (tbl : AttrTable)
    (ig iq : Bool) (w : WikiClient) (qids : List String) (sq : String)
    (hg : ig = true ∨ alContains qd col = false)
    (hc : tbl.columns.contains col = true)
    (hq : lookupQids (alSet qd col (Val.listV [])) = .ok qids)
    (hm : get_min_qid qids = .ok sq)
    (hr : (tbl.rows.filter (fun r => r.id == sq)).head? = none) :
    addColState qd col tbl ig iq w =
      (.error PyError.indexError, alSet qd col (Val.listV [])) := by
  simp only [addColState]
  rw [if_neg (by rcases hg with h | h <;> simp [h]), if_neg (by simpa using hc)]
  simp only [hq, hm, hr]

theorem addColState_cases (qd : Record) (col : String) (tbl : AttrTable)
    (ig iq : Bool) (w : WikiClient) :
    (∃ e, addColState qd col tbl ig iq w = (.error e, qd)) ∨
    (∃ e, addColState qd col tbl ig iq w
        = (.error e, alSet qd col (Val.listV []))) ∨
    (∃ qids sq row,
      tbl.columns.contains col = true ∧
      lookupQids (alSet qd col (Val.listV [])) = .ok qids ∧
      get_min_qid qids = .ok sq ∧
      (tbl.rows.filter (fun r => r.id == sq)).head? = some row ∧
      ((row.cells col = none ∧
          addColState qd col tbl ig iq w
            = (.ok (alSet qd col (Val.listV [])), alSet qd col (Val.listV []))) ∨
       (∃ cell, row.cells col = some cell ∧
          addColState qd col tbl ig iq w
            = (.ok (alSet (alSet qd col (Val.listV [])) col
                  (labelsVal iq cell w)),
               alSet (alSet qd col (Val.listV [])) col
                  (labelsVal iq cell w))))) := by
  by_cases hg : ig = false ∧ alContains qd col = true
  · exact Or.inl ⟨_, by simp only [addColState]; rw [if_pos hg]⟩
  · by_cases hc : tbl.columns.contains col = false
    · exact Or.inl ⟨_, by simp only [addColState]; rw [if_neg hg, if_pos hc]⟩
    · have hc' : tbl.columns.contains col = true := by
        cases hcc : tbl.columns.contains col
        · exact absurd hcc hc
        · rfl
      cases hq : lookupQids (alSet qd col (Val.listV [])) with
      | error e =>
        refine Or.inr (Or.inl ⟨e, ?_⟩)
        simp only [addColState]
        rw [if_neg hg, if_neg hc]
        simp only [hq]
      | ok qids =>
        cases hm : get_min_qid qids with
        | error e =>
          refine Or.inr (Or.inl ⟨e, ?_⟩)
          simp only [addColState]
          rw [if_neg hg, if_neg hc]
          simp only [hq, hm]
        | ok sq =>
          cases hr : (tbl.rows.filter (fun r => r.id == sq)).head? with
          | none =>
            refine Or.inr (Or.inl ⟨PyError.indexError, ?_⟩)
            simp only [addColState]
            rw [if_neg hg, if_neg hc]
            simp only [hq, hm, hr]
          | some row =>
            refine Or.inr (Or.inr ⟨qids, sq, row, hc', rfl, hm, hr, ?_⟩)
            cases hcell : row.cells col with
            | none =>
              refine Or.inl ⟨rfl, ?_⟩
              simp only [addColState]
              rw [if_neg hg, if_neg hc]
              simp only [hq, hm, hr, hcell]
            | some cell =>
              refine Or.inr ⟨cell, rfl, ?_⟩
              simp only [addColState]
              rw [if_neg hg, if_neg hc]
              simp only [hq, hm, hr, hcell]

theorem add_fst_eq_addColState_fst (qd : Record) (col : String)
    (tbl : AttrTable) (inplace ig iq : Bool) (w : WikiClient) :
    (add_wikidata_column_to_quote qd col tbl inplace ig iq w).1
      = (addColState qd col tbl ig iq w).1 := by
  unfold add_wikidata_column_to_quote
  cases inplace <;> simp

/- ## Filter-stage and label-mapping lemmas -/

theorem keepRecord_eq (r : Record) (v : Val)
    (hv : alGet? r "speaker" = some v) : keepRecord r = !(isNoneVal v) := by
  unfold keepRecord
  rw [hv]

/-- C4: for every stream of well-formed records (each parsed line has a
speaker field), the filter stage writes exactly the records whose speaker
is not the sentinel string None, in input order, each surviving record
reproduced exactly with no field loss. -/
theorem discardNoneSpeakers_eq_filter (l : List Record)
    (h : ∀ r ∈ l, (alGet? r "speaker").isSome = true) :
    discardNoneSpeakers l = .ok (l.filter keepRecord) := by
  induction l with
  | nil => rfl
  | cons r rs ih =>
    have hr := h r (List.mem_cons_self r rs)
    obtain ⟨v, hv⟩ := Option.isSome_iff_exists.mp hr
    have hrest := ih (fun x hx => h x (List.mem_cons_of_mem r hx))
    have hkeep : keepRecord r = !(isNoneVal v) := keepRecord_eq r v hv
    show (match alGet? r "speaker" with
      | none => Except.error (PyError.keyError "speaker")
      | some v =>
        if isNoneVal v then discardNoneSpeakers rs
        else do
          let rest ← discardNoneSpeakers rs
          return r :: rest) = .ok ((r :: rs).filter keepRecord)
    simp only [hv]
    rw [List.filter_cons, hkeep, hrest]
    cases hb : isNoneVal v with
    | true => simp [hb]
    | false => simp [hb, Bind.bind, Except.bind, pure, Except.pure]

theorem map_qids_to_labels_mem_aux (w : WikiClient) (q : String) :
    ∀ (qids : List String) (d : List (String × String)),
      ((alGet? (qids.foldl
          (fun d qid =>
            match w qid with
            | some lbl => alSet d qid lbl
            | none => d) d) q).isSome = true ↔
        ((alGet? d q).isSome = true ∨ (q ∈ qids ∧ (w q).isSome = true)))
  | [], d => by simp
  | q' :: qs, d => by
    rw [List.foldl_cons, map_qids_to_labels_mem_aux w q qs _]
    have hstep : ((alGet? (match w q' with
          | some lbl => alSet d q' lbl
          | none => d) q).isSome = true ↔
        ((alGet? d q).isSome = true ∨ (q = q' ∧ (w q).isSome = true))) := by
      cases hw : w q' with
      | some l =>
        by_cases hqq : q = q'
        · subst hqq
          simp [alGet?_alSet_self, hw]
        · simp [alGet?_alSet_ne d q' q l hqq, hqq]
      | none =>
        by_cases hqq : q = q'
        · subst hqq
          simp [hw]
        · simp [hqq]
    rw [hstep]
    simp only [List.mem_cons]
    tauto

/- ## The claims -/

/-- C1 (amended): under the enrichment guards, when the attribute row of
the resolved minimum QID has an absent (None) value in the target column,
`add_wikidata_column_to_quote` raises no error and returns the record
otherwise unchanged — but the new field is not left unset: it is set to
the empty list, because the assignment on line 151 runs before the None
check on line 160. -/
theorem add_absent_cell_sets_empty_field (qd : Record) (col : String)
    (tbl : AttrTable) (inplace ig iq : Bool) (w : WikiClient)
    (qids : List String) (sq : String) (row : AttrRow)
    (hg : ig = true ∨ alContains qd col = false)
    (hc : tbl.columns.contains col = true)
    (hq : lookupQids (alSet qd col (Val.listV [])) = .ok qids)
    (hm : get_min_qid qids = .ok sq)
    (hr : (tbl.rows.filter (fun r => r.id == sq)).head? = some row)
    (hcell : row.cells col = none) :
    (add_wikidata_column_to_quote qd col tbl inplace ig iq w).1
        = .ok (alSet qd col (Val.listV [])) ∧
    alGet? (alSet qd col (Val.listV [])) col = some (Val.listV []) ∧
    (∀ k, k ≠ col → alGet? (alSet qd col (Val.listV [])) k = alGet? qd k) := by
  have hstate := addColState_none_cell qd col tbl ig iq w qids sq row hg hc
    hq hm hr hcell
  refine ⟨?_, alGet?_alSet_self qd col (Val.listV []),
    fun k hk => alGet?_alSet_ne qd col k (Val.listV []) hk⟩
  rw [add_fst_eq_addColState_fst, hstate]

/-- Witness for C1 (amended) at the concrete scenario of the spec:
entity Q5 has no date_of_birth value; enrichment succeeds and sets the
new field to the empty list, leaving the speaker field untouched. -/
theorem add_absent_cell_sets_empty_field_witness :
    (add_wikidata_column_to_quote exQuote "date_of_birth" exTable false true
        false exWiki).1
      = .ok (alSet exQuote "date_of_birth" (Val.listV [])) ∧
    alGet? (alSet exQuote "date_of_birth" (Val.listV [])) "date_of_birth"
      = some (Val.listV []) ∧
    alGet? (alSet exQuote "date_of_birth" (Val.listV [])) "speaker"
      = alGet? exQuote "speaker" := by
  have h := add_absent_cell_sets_empty_field exQuote "date_of_birth" exTable
    false true false exWiki ["Q42", "Q5"] "Q5" exRow (Or.inl rfl) rfl rfl rfl
    rfl rfl
  exact ⟨h.1, h.2.1, h.2.2 "speaker" (by decide)⟩

/-- Counterexample to C1 as stated: in the concrete absent-value scenario
the enrichment succeeds, but the returned record does NOT leave the new
field unset — the date_of_birth key is present, bound to the empty
list. -/
theorem absent_cell_field_not_unset_counterexample :
    (add_wikidata_column_to_quote exQuote "date_of_birth" exTable false true
        false exWiki).1
      = .ok (exQuote ++ [("date_of_birth", Val.listV [])]) ∧
    (alGet? (exQuote ++ [("date_of_birth", Val.listV [])])
        "date_of_birth").isSome = true ∧
    alContains (exQuote ++ [("date_of_birth", Val.listV [])]) "date_of_birth"
      = true :=
  ⟨rfl, rfl, rfl⟩

/-- C2: on a non-empty collection of identifier strings of the canonical
form Q followed by an integer, `get_min_qid` returns an element of the
collection, namely the one whose integer suffix is minimal. -/
theorem get_min_qid_selects_minimum (ns : List Nat) (h : ns ≠ []) :
    ∃ m : Nat,
      get_min_qid (ns.map (fun n => "Q" ++ natStr n))
        = .ok ("Q" ++ natStr m) ∧
      ("Q" ++ natStr m) ∈ ns.map (fun n => "Q" ++ natStr n) ∧
      m ∈ ns ∧ (∀ k ∈ ns, m ≤ k) := by
  cases ns with
  | nil => exact absurd rfl h
  | cons x xs =>
    refine ⟨xs.foldl Nat.min x, ?_, ?_, foldl_min_mem xs x,
      fun k hk => foldl_min_le xs x k hk⟩
    · unfold get_min_qid
      rw [qidsToInts_map (x :: xs)]
      simp [pyMin, Bind.bind, Except.bind, pure, Except.pure]
    · exact List.mem_map_of_mem _ (foldl_min_mem xs x)

/-- Witness for C2 on the set of identifiers Q42 and Q5. -/
theorem get_min_qid_selects_minimum_witness :
    ∃ m : Nat,
      get_min_qid (([42, 5] : List Nat).map (fun n => "Q" ++ natStr n))
        = .ok ("Q" ++ natStr m) ∧
      ("Q" ++ natStr m) ∈ ([42, 5] : List Nat).map (fun n => "Q" ++ natStr n) ∧
      m ∈ ([42, 5] : List Nat) ∧ (∀ k ∈ ([42, 5] : List Nat), m ≤ k) :=
  get_min_qid_selects_minimum [42, 5] (by decide)

/-- C3: with is_qid=True and the enrichment guards satisfied, the
enrichment assigns to the target column the ordered sequence of labels of
the QIDs stored in the attribute cell of the resolved minimum QID. -/
theorem add_qid_column_assigns_labels (qd : Record) (col : String)
    (tbl : AttrTable) (inplace ig : Bool) (w : WikiClient)
    (qids : List String) (sq : String) (row : AttrRow) (cell : List String)
    (hg : ig = true ∨ alContains qd col = false)
    (hc : tbl.columns.contains col = true)
    (hq : lookupQids (alSet qd col (Val.listV [])) = .ok qids)
    (hm : get_min_qid qids = .ok sq)
    (hr : (tbl.rows.filter (fun r => r.id == sq)).head? = some row)
    (hcell : row.cells col = some cell) :
    (add_wikidata_column_to_quote qd col tbl inplace ig true w).1
      = .ok (alSet (alSet qd col (Val.listV [])) col
          (Val.listV (((map_qids_to_labels cell w).map Prod.snd).map
            Val.str))) ∧
    alGet? (alSet (alSet qd col (Val.listV [])) col
          (Val.listV (((map_qids_to_labels cell w).map Prod.snd).map
            Val.str))) col
      = some (Val.listV (((map_qids_to_labels cell w).map Prod.snd).map
          Val.str)) := by
  have hstate := addColState_some_cell qd col tbl ig true w qids sq row cell
    hg hc hq hm hr hcell
  exact ⟨by rw [add_fst_eq_addColState_fst, hstate]; rfl,
    alGet?_alSet_self (alSet qd col (Val.listV [])) col _⟩

/-- Witness for C3 at the concrete scenario of the spec: qids Q42 and Q5,
gender of Q5 stored as Q6581097, label service mapping it to male; the
enriched record has gender equal to the singleton list [male]. -/
theorem add_qid_column_assigns_labels_witness :
    (add_wikidata_column_to_quote exQuote "gender" exTable false true true
        exWiki).1
      = .ok exEnriched ∧
    alGet? exEnriched "gender" = some (Val.listV [Val.str "male"]) := by
  have h := add_qid_column_assigns_labels exQuote "gender" exTable false
    true exWiki ["Q42", "Q5"] "Q5" exRow ["Q6581097"] (Or.inl rfl) rfl rfl
    rfl rfl rfl
  exact ⟨h.1, h.2⟩

/-- Witness for C4 on a two-record stream: the record with a resolved
speaker survives unchanged, the record with speaker None is dropped. -/
theorem discardNoneSpeakers_witness :
    (∀ r ∈ [exQuote, exQuoteNone], (alGet? r "speaker").isSome = true) ∧
    discardNoneSpeakers [exQuote, exQuoteNone] = .ok [exQuote] :=
  ⟨by decide, discardNoneSpeakers_eq_filter [exQuote, exQuoteNone] (by decide)⟩

/-- C5 (amended): applied to the empty candidate set, `get_min_qid` does
fail — but with the generic ValueError coming out of the builtin min on an
empty sequence, not with a clearly-named, explicitly raised error. -/
theorem get_min_qid_empty_generic_error :
    get_min_qid [] = .error (.valueError "min() arg is an empty sequence") :=
  rfl

/-- Counterexample to C5 as stated: the failure on the empty set is the
generic min-of-empty-sequence ValueError, which is not an explicitly
raised (clearly-named) error of this script. -/
theorem get_min_qid_empty_not_explicit_counterexample :
    get_min_qid [] = .error (.valueError "min() arg is an empty sequence") ∧
    PyError.isExplicitRaise (.valueError "min() arg is an empty sequence")
      = false :=
  ⟨rfl, rfl⟩

/-- C6: with ignore_existing=False on a record that already contains the
target field, `add_wikidata_column_to_quote` always raises the
naming-collision error, and the record is left unchanged. -/
theorem add_collision_always_raises (qd : Record) (col : String)
    (tbl : AttrTable) (inplace iq : Bool) (w : WikiClient)
    (h : alContains qd col = true) :
    add_wikidata_column_to_quote qd col tbl inplace false iq w =
      (.error (.exception
          ("Provided column name \"" ++ col ++ "\" already exists!")), qd) := by
  simp only [add_wikidata_column_to_quote]
  rw [addColState_collision qd col tbl iq w h]
  cases inplace <;> rfl

/-- Witness for C6: the sample record already carrying a gender field. -/
theorem add_collision_always_raises_witness :
    add_wikidata_column_to_quote exQuoteGender "gender" exTable false false
        true exWiki =
      (.error (.exception "Provided column name \"gender\" already exists!"),
       exQuoteGender) :=
  add_collision_always_raises exQuoteGender "gender" exTable false true
    exWiki rfl

/-- C7: enrichment is idempotent under ignore_existing=True — if a first
application succeeds and returns a record, applying the function again to
that record with the same column, attribute table and label service
returns the very same record. -/
theorem add_idempotent_ignore_existing (qd : Record) (col : String)
    (tbl : AttrTable) (iq : Bool) (w : WikiClient)
    (inplace1 inplace2 : Bool) (r1 : Record)
    (h : (add_wikidata_column_to_quote qd col tbl inplace1 true iq w).1
      = .ok r1) :
    (add_wikidata_column_to_quote r1 col tbl inplace2 true iq w).1
      = .ok r1 := by
  rw [add_fst_eq_addColState_fst] at h
  rw [add_fst_eq_addColState_fst]
  rcases addColState_cases qd col tbl true iq w with ⟨e, he⟩ | ⟨e, he⟩ |
    ⟨qids, sq, row, hc, hq, hm, hr, hrest⟩
  · rw [he] at h; simp at h
  · rw [he] at h; simp at h
  · rcases hrest with ⟨hcell, heq⟩ | ⟨cell, hcell, heq⟩
    · rw [heq] at h
      simp only [Except.ok.injEq] at h
      subst h
      have hq2 : lookupQids (alSet (alSet qd col (Val.listV [])) col
          (Val.listV [])) = .ok qids := by
        rw [alSet_alSet]; exact hq
      rw [addColState_none_cell (alSet qd col (Val.listV [])) col tbl true iq
        w qids sq row (Or.inl rfl) hc hq2 hm hr hcell]
      simp [alSet_alSet]
    · rw [heq] at h
      simp only [Except.ok.injEq] at h
      subst h
      have hq2 : lookupQids (alSet (alSet (alSet qd col (Val.listV [])) col
          (labelsVal iq cell w)) col (Val.listV [])) = .ok qids := by
        rw [alSet_alSet, alSet_alSet]; exact hq
      rw [addColState_some_cell (alSet (alSet qd col (Val.listV [])) col
        (labelsVal iq cell w)) col tbl true iq w qids sq row cell
        (Or.inl rfl) hc hq2 hm hr hcell]
      simp [alSet_alSet]

/-- Witness for C7: enriching the sample record for gender once and then
again yields the same enriched record. -/
theorem add_idempotent_ignore_existing_witness :
    (add_wikidata_column_to_quote exQuote "gender" exTable false true true
        exWiki).1 = .ok exEnriched ∧
    (add_wikidata_column_to_quote exEnriched "gender" exTable false true
        true exWiki).1 = .ok exEnriched := by
  have h1 : (add_wikidata_column_to_quote exQuote "gender" exTable false
      true true exWiki).1 = .ok exEnriched := rfl
  exact ⟨h1, add_idempotent_ignore_existing exQuote "gender" exTable true
    exWiki false false exEnriched h1⟩

/-- C8: the mapping built by `map_qids_to_labels` has an entry exactly
for those of the given identifiers whose knowledge-base lookup succeeds;
a failing lookup never aborts the call, it merely leaves its identifier
out. -/
theorem map_qids_to_labels_domain (qids : List String) (w : WikiClient)
    (q : String) :
    (alGet? (map_qids_to_labels qids w) q).isSome = true ↔
      (q ∈ qids ∧ (w q).isSome = true) := by
  unfold map_qids_to_labels
  rw [map_qids_to_labels_mem_aux w q qids []]
  simp [alGet?]

/-- C9: with inplace=False the original record is untouched and the
returned record differs from it in at most the target column; with
inplace=True the record handed in is the one that ends up mutated (on
success it equals the returned record). -/
theorem add_inplace_frame (qd : Record) (col : String) (tbl : AttrTable)
    (ig iq : Bool) (w : WikiClient) :
    (add_wikidata_column_to_quote qd col tbl false ig iq w).2 = qd ∧
    (∀ r1, (add_wikidata_column_to_quote qd col tbl false ig iq w).1
        = .ok r1 →
      ∀ k, k ≠ col → alGet? r1 k = alGet? qd k) ∧
    (∀ r1, (add_wikidata_column_to_quote qd col tbl true ig iq w).1
        = .ok r1 →
      (add_wikidata_column_to_quote qd col tbl true ig iq w).2 = r1) := by
  refine ⟨rfl, ?_, ?_⟩
  · intro r1 h k hk
    rw [add_fst_eq_addColState_fst] at h
    rcases addColState_cases qd col tbl ig iq w with ⟨e, he⟩ | ⟨e, he⟩ |
      ⟨qids, sq, row, hc, hq, hm, hr, hrest⟩
    · rw [he] at h; simp at h
    · rw [he] at h; simp at h
    · rcases hrest with ⟨hcell, heq⟩ | ⟨cell, hcell, heq⟩
      · rw [heq] at h
        simp only [Except.ok.injEq] at h
        subst h
        exact alGet?_alSet_ne qd col k (Val.listV []) hk
      · rw [heq] at h
        simp only [Except.ok.injEq] at h
        subst h
        rw [alGet?_alSet_ne _ col k _ hk, alGet?_alSet_ne qd col k _ hk]
  · intro r1 h
    have h2 : (addColState qd col tbl ig iq w).1 = .ok r1 := by
      rw [← add_fst_eq_addColState_fst qd col tbl true ig iq w]
      exact h
    have hsnd : (add_wikidata_column_to_quote qd col tbl true ig iq w).2
        = (addColState qd col tbl ig iq w).2 := by
      simp [add_wikidata_column_to_quote]
    rw [hsnd]
    rcases addColState_cases qd col tbl ig iq w with ⟨e, he⟩ | ⟨e, he⟩ |
      ⟨qids, sq, row, hc, hq, hm, hr, hrest⟩
    · rw [he] at h2; simp at h2
    · rw [he] at h2; simp at h2
    · rcases hrest with ⟨hcell, heq⟩ | ⟨cell, hcell, heq⟩ <;>
        rw [heq] at h2 ⊢ <;> simpa using h2

/-- Witness for C9 at the gender scenario: the copy call leaves the input
untouched and preserves the speaker field; the inplace call leaves the
input equal to the returned record. -/
theorem add_inplace_frame_witness :
    (add_wikidata_column_to_quote exQuote "gender" exTable false true true
        exWiki).2 = exQuote ∧
    alGet? exEnriched "speaker" = alGet? exQuote "speaker" ∧
    (add_wikidata_column_to_quote exQuote "gender" exTable true true true
        exWiki).2 = exEnriched := by
  have h := add_inplace_frame exQuote "gender" exTable true true exWiki
  exact ⟨h.1, h.2.1 exEnriched rfl "speaker" (by decide),
    h.2.2 exEnriched rfl⟩

/-- C10: once the guards pass and the minimum QID is resolved,
`add_wikidata_column_to_quote` completes successfully only when that QID
has a row in the attribute table; when no row matches, the unguarded
row-value access raises IndexError. -/
theorem add_requires_attr_row (qd : Record) (col : String)
    (tbl : AttrTable) (inplace ig iq : Bool) (w : WikiClient)
    (qids : List String) (sq : String)
    (hg : ig = true ∨ alContains qd col = false)
    (hc : tbl.columns.contains col = true)
    (hq : lookupQids (alSet qd col (Val.listV [])) = .ok qids)
    (hm : get_min_qid qids = .ok sq) :
    ((tbl.rows.filter (fun r => r.id == sq)).head? = none →
      (add_wikidata_column_to_quote qd col tbl inplace ig iq w).1
        = .error PyError.indexError) ∧
    (∀ r1, (add_wikidata_column_to_quote qd col tbl inplace ig iq w).1
        = .ok r1 →
      ((tbl.rows.filter (fun r => r.id == sq)).head?).isSome = true) := by
  constructor
  · intro hr
    rw [add_fst_eq_addColState_fst,
      addColState_no_row qd col tbl ig iq w qids sq hg hc hq hm hr]
  · intro r1 h
    cases hhr : (tbl.rows.filter (fun r => r.id == sq)).head? with
    | some row => rfl
    | none =>
      rw [add_fst_eq_addColState_fst,
        addColState_no_row qd col tbl ig iq w qids sq hg hc hq hm hhr] at h
      simp at h

/-- Witness for C10: with an empty attribute table the same record and
column produce an IndexError. -/
theorem add_requires_attr_row_witness :
    (add_wikidata_column_to_quote exQuote "gender" exTableNoRows false true
        true exWiki).1 = .error PyError.indexError :=
  (add_requires_attr_row exQuote "gender" exTableNoRows false true true
    exWiki ["Q42", "Q5"] "Q5" (Or.inl rfl) rfl rfl rfl).1 rfl

end Quotebank
